import Mathlib

/-
Shallow embedding of src/ports/sample_app_port.c.

Bytes are modelled as Nat values; the C uint8_t buffers passed to the
advertisement extractor are modelled as a byte function together with an
explicit declared length, exactly mirroring the (pointer, length) pair of
adv_extract.  The while loop of adv_extract is embedded with an explicit
iteration budget: each loop iteration strictly increases the offset, so a
budget equal to the declared length can never be exhausted before the loop
condition fails; the budget therefore only mirrors the C loop structure.
The uint8_t offset arithmetic of the C loop never wraps, because the bounds
check keeps i + 1 + len at most data_len, itself at most 255.

The device cache is a list of records (C: a fixed array of MAX_DEVICES
records); the fixed mfg and svc byte arrays of device_cache_t are modelled
by the lists of their meaningful prefixes, whose lengths play the role of
mfg_len and svc_len (the bytes past those lengths are never read by the C
code).  g_latest_index is an Int, -1 meaning none, as in the C.  The C
int8_t rssi is an Int, and its uint8_t cast in reply serialization is the
mathematical mod 256.  The port call dispatcher handle_call is embedded
over the global state (devices, latest index, started flag) with the
success of the one-time radio bring-up passed as an explicit input; request
and reply binaries are byte lists.
-/

-- ----- Minimal ADV parser (adv_extract) -----

structure adv_extract_t where
  mfg : List Nat
  svc : List Nat
  has_mfg : Bool
  has_svc : Bool
deriving DecidableEq

def adv_init : adv_extract_t := { mfg := [], svc := [], has_mfg := false, has_svc := false }

/-- The value bytes data[start], ..., data[start+n-1] of an AD structure. -/
def advSlice (data : Nat → Nat) (start n : Nat) : List Nat :=
  (List.range n).map fun k => data (start + k)

/-- Loop body of adv_extract.  budget bounds the number of iterations; each
iteration advances i by at least 2, so the initial budget data_len is never
exhausted while i < data_len. -/
def adv_extract_loop (data : Nat → Nat) (data_len : Nat) : Nat → Nat → adv_extract_t → adv_extract_t
  | 0, _, acc => acc
  | budget + 1, i, acc =>
    if i < data_len then
      let len := data i
      if len = 0 then acc
      else if data_len ≤ i + len then acc
      else
        let ty := data (i + 1)
        let val_len := len - 1
        let acc1 :=
          if ty = 0xFF ∧ 2 ≤ val_len then
            { acc with has_mfg := true, mfg := advSlice data (i + 2) val_len }
          else acc
        let acc2 :=
          if ty = 0x16 ∧ 2 ≤ val_len then
            if data (i + 2) = 0x3d ∧ data (i + 3) = 0xfd then
              { acc1 with has_svc := true, svc := advSlice data (i + 4) (val_len - 2) }
            else acc1
          else acc1
        adv_extract_loop data data_len budget (i + 1 + len) acc2
    else acc

def adv_extract (data : Nat → Nat) (data_len : Nat) : adv_extract_t :=
  adv_extract_loop data data_len data_len 0 adv_init

/-- Chain data dl i m holds when the AD-structure iteration starting at
offset i reaches offset m through whole well-formed structures. -/
inductive Chain (data : Nat → Nat) (dl : Nat) : Nat → Nat → Prop
  | refl (i : Nat) : Chain data dl i i
  | step {i m : Nat} (h1 : i < dl) (h2 : data i ≠ 0) (h3 : i + data i < dl)
      (h4 : Chain data dl (i + 1 + data i) m) : Chain data dl i m

/-- A well-formed service-data AD structure at offset m whose 16-bit UUID
matches the SwitchBot service UUID (little-endian 0x3d, 0xfd). -/
def svc_struct_at (data : Nat → Nat) (dl m : Nat) : Prop :=
  m < dl ∧ data m ≠ 0 ∧ m + data m < dl ∧ data (m + 1) = 0x16 ∧
    2 ≤ data m - 1 ∧ data (m + 2) = 0x3d ∧ data (m + 3) = 0xfd

-- ----- Cache (merge ADV_IND + SCAN_RSP) -----

def MAX_DEVICES : Nat := 12

def MAX_BLE_DATA : Nat := 31

structure device_cache_t where
  addr : List Nat
  in_use : Bool
  rssi : Int
  have_mfg : Bool
  mfg : List Nat
  have_svc : Bool
  svc : List Nat
  device_id : Nat
  have_device_id : Bool
deriving DecidableEq

/-- A memset-zeroed cache slot. -/
def zero_device : device_cache_t :=
  { addr := List.replicate 6 0, in_use := false, rssi := 0,
    have_mfg := false, mfg := [], have_svc := false, svc := [],
    device_id := 0, have_device_id := false }

structure AppState where
  g_devices : List device_cache_t
  g_latest_index : Int
  g_ble_started : Bool
deriving DecidableEq

def initial_state : AppState :=
  { g_devices := List.replicate MAX_DEVICES zero_device, g_latest_index := -1,
    g_ble_started := false }

/-- Index of the first element from position i satisfying p. -/
def findIdxFrom (p : device_cache_t → Bool) : List device_cache_t → Nat → Option Nat
  | [], _ => none
  | d :: ds, i => if p d then some i else findIdxFrom p ds (i + 1)

/-- cache_find_or_alloc: find the slot for addr, or claim the first free
slot, zero it and stamp the address; none when the cache is full. -/
def cache_find_or_alloc (devices : List device_cache_t) (addr : List Nat) :
    Option Nat × List device_cache_t :=
  match findIdxFrom (fun d => d.in_use && d.addr == addr) devices 0 with
  | some i => (some i, devices)
  | none =>
    match findIdxFrom (fun d => !d.in_use) devices 0 with
    | some i => (some i, devices.set i { zero_device with in_use := true, addr := addr })
    | none => (none, devices)

/-- is_switchbot_mfg: company identifier check on the manufacturer bytes. -/
def is_switchbot_mfg (mfg : List Nat) : Bool :=
  if mfg.length < 2 then false
  else mfg.getD 0 0 == 0x69 && mfg.getD 1 0 == 0x09

/-- update_device_id: derive the 16-bit device id from mfg bytes 6 and 7
when at least 8 manufacturer bytes are available; otherwise no change. -/
def update_device_id (d : device_cache_t) : device_cache_t :=
  if d.have_mfg ∧ 8 ≤ d.mfg.length then
    { d with device_id := ((d.mfg.getD 6 0 <<< 8) ||| d.mfg.getD 7 0) % 65536,
             have_device_id := true }
  else d

/-- The valid-merged-reading predicate, the condition repeated verbatim in
maybe_mark_latest and in the was_merged computation of gap_event_cb. -/
def valid_merged (d : device_cache_t) : Bool :=
  d.have_mfg && d.have_svc && is_switchbot_mfg d.mfg

def maybe_mark_latest (st : AppState) (idx : Nat) : AppState × Bool :=
  let d := st.g_devices.getD idx zero_device
  if valid_merged d then
    ({ st with g_devices := st.g_devices.set idx (update_device_id d),
               g_latest_index := (idx : Int) }, true)
  else (st, false)

/-- The per-record updates of the BLE_GAP_EVENT_DISC branch: rssi is
written unconditionally, then each payload half that is present and fits
the per-field cap is copied in. -/
def apply_event (d : device_cache_t) (rssi : Int) (ex : adv_extract_t) : device_cache_t :=
  let d1 := { d with rssi := rssi }
  let d2 :=
    if ex.has_mfg ∧ ex.mfg.length ≤ MAX_BLE_DATA then
      { d1 with have_mfg := true, mfg := ex.mfg }
    else d1
  if ex.has_svc ∧ ex.svc.length ≤ MAX_BLE_DATA then
    { d2 with have_svc := true, svc := ex.svc }
  else d2

/-- The BLE_GAP_EVENT_DISC branch of gap_event_cb after adv_extract: drop
events carrying neither extracted field, find or allocate the slot, update
it, and report whether the record newly became a valid merged reading. -/
def ingest (st : AppState) (addr : List Nat) (rssi : Int) (ex : adv_extract_t) :
    AppState × Bool :=
  if !ex.has_mfg && !ex.has_svc then (st, false)
  else
    match cache_find_or_alloc st.g_devices addr with
    | (none, _) => (st, false)
    | (some idx, devices1) =>
      let d0 := devices1.getD idx zero_device
      let was_merged := valid_merged d0
      let d3 := apply_event d0 rssi ex
      let st1 : AppState := { st with g_devices := devices1.set idx d3 }
      let r := maybe_mark_latest st1 idx
      (r.1, !was_merged && r.2)

-- ----- Port call handling -----

/-- reply_latest: success byte, then addr, rssi cast to a byte, the
service payload with its length byte, the manufacturer payload with its
length byte. -/
def reply_latest (d : device_cache_t) : List Nat :=
  0x00 :: (d.addr ++ [(d.rssi % 256).toNat] ++ (d.svc.length :: d.svc) ++ (d.mfg.length :: d.mfg))

/-- Loop of the OPCODE_LATEST_FOR scan: remaining counts the slots left of
the MAX_DEVICES loop bound, i is the current slot index.  Records passing
the occupancy, completeness and company-id checks get their device id
recomputed in place before the comparison, as in the C. -/
def latest_for_loop (wanted : Nat) :
    Nat → Nat → List device_cache_t → Option Nat × List device_cache_t
  | 0, _, devices => (none, devices)
  | remaining + 1, i, devices =>
    let d := devices.getD i zero_device
    if !d.in_use then latest_for_loop wanted remaining (i + 1) devices
    else if !d.have_mfg || !d.have_svc then latest_for_loop wanted remaining (i + 1) devices
    else if !is_switchbot_mfg d.mfg then latest_for_loop wanted remaining (i + 1) devices
    else
      let d2 := update_device_id d
      let devices2 := devices.set i d2
      if d2.have_device_id && d2.device_id == wanted then (some i, devices2)
      else latest_for_loop wanted remaining (i + 1) devices2

/-- handle_call: the opcode dispatcher.  initOk models whether the
one-time radio bring-up (nvs_flash_init and the NimBLE start) succeeds
when OPCODE_BLE_START runs it.  Requests are binaries, so the non-binary
guard of the C (error 0x10) is outside the model. -/
def handle_call (st : AppState) (req : List Nat) (initOk : Bool) : AppState × List Nat :=
  match req with
  | [] => (st, [0x01, 0x11])
  | opcode :: body =>
    if opcode = 0x01 then (st, [0x00, 0x50, 0x4F, 0x4E, 0x47])
    else if opcode = 0x02 then (st, 0x00 :: body)
    else if opcode = 0x10 then
      if st.g_ble_started = false then
        if initOk then ({ st with g_ble_started := true }, [0x00, 0x01])
        else (st, [0x01, 0x30])
      else (st, [0x00, 0x01])
    else if opcode = 0x11 then
      if st.g_ble_started = false then (st, [0x01, 0x32])
      else (st, [0x00, 0x01])
    else if opcode = 0x12 then
      if st.g_ble_started = false then (st, [0x01, 0x40])
      else if st.g_latest_index < 0 then (st, [0x01, 0x41])
      else (st, reply_latest (st.g_devices.getD st.g_latest_index.toNat zero_device))
    else if opcode = 0x13 then
      if st.g_ble_started = false then (st, [0x01, 0x40])
      else if body.length < 2 then (st, [0x01, 0x42])
      else
        let wanted := (body.getD 0 0 <<< 8) ||| body.getD 1 0
        let r := latest_for_loop wanted MAX_DEVICES 0 st.g_devices
        match r with
        | (none, devices2) => ({ st with g_devices := devices2 }, [0x01, 0x43])
        | (some i, devices2) =>
          ({ st with g_devices := devices2 }, reply_latest (devices2.getD i zero_device))
    else (st, [0x01, 0x12])

-- ----- Concrete scenario states used by witnesses and counterexamples -----

def sc_addrA : List Nat := [1, 0, 0, 0, 0, 0]

def sc_addrB : List Nat := [2, 0, 0, 0, 0, 0]

/-- A SwitchBot manufacturer payload of 8 bytes with device id 0x1234. -/
def sc_mfg_good : adv_extract_t :=
  { mfg := [0x69, 0x09, 0, 0, 0, 0, 0x12, 0x34], svc := [], has_mfg := true, has_svc := false }

def sc_svc_one : adv_extract_t := { mfg := [], svc := [0xAA], has_mfg := false, has_svc := true }

/-- A manufacturer payload failing the company identifier check. -/
def sc_mfg_bad : adv_extract_t := { mfg := [0, 0], svc := [], has_mfg := true, has_svc := false }

/-- A SwitchBot manufacturer payload of only 2 bytes. -/
def sc_mfg_short : adv_extract_t :=
  { mfg := [0x69, 0x09], svc := [], has_mfg := true, has_svc := false }

def sc_no_fields : adv_extract_t := { mfg := [], svc := [], has_mfg := false, has_svc := false }

def st_started : AppState := (handle_call initial_state [0x10] true).1

def st_mfg_only : AppState := (ingest initial_state sc_addrA (-60) sc_mfg_good).1

def st_merged : AppState :=
  (ingest (ingest st_started sc_addrA (-60) sc_mfg_good).1 sc_addrA (-58) sc_svc_one).1

def st_overwritten : AppState := (ingest st_merged sc_addrA (-55) sc_mfg_bad).1

def st_shortened : AppState := (ingest st_merged sc_addrA (-50) sc_mfg_short).1

def st_two_merged : AppState :=
  (ingest (ingest (ingest (ingest initial_state sc_addrA 0 sc_mfg_good).1
    sc_addrA 0 sc_svc_one).1 sc_addrB 0 sc_mfg_good).1 sc_addrB 0 sc_svc_one).1

def st_full : AppState :=
  (List.range MAX_DEVICES).foldl
    (fun st k => (ingest st [k + 1, 0, 0, 0, 0, 0] 0 sc_mfg_short).1) initial_state

-- ----- Helper lemmas -----

theorem list_getD_set_self {α : Type} (l : List α) (i : Nat) (x d : α) (h : i < l.length) :
    (l.set i x).getD i d = x := by
  induction l generalizing i with
  | nil => simp at h
  | cons a as ih =>
    cases i with
    | zero => rfl
    | succ n =>
      simp only [List.set, List.getD, List.get?]
      exact ih n (by simpa using h)

theorem list_getD_set_ne {α : Type} (l : List α) (i k : Nat) (x d : α) (h : i ≠ k) :
    (l.set i x).getD k d = l.getD k d := by
  induction l generalizing i k with
  | nil => rfl
  | cons a as ih =>
    cases i with
    | zero =>
      cases k with
      | zero => exact absurd rfl h
      | succ n => rfl
    | succ m =>
      cases k with
      | zero => rfl
      | succ n =>
        simp only [List.set, List.getD, List.get?]
        exact ih m n (fun hmn => h (by omega))

theorem list_getD_len_le {α : Type} (l : List α) (i : Nat) (d : α) (h : l.length ≤ i) :
    l.getD i d = d := by
  induction l generalizing i with
  | nil => cases i <;> rfl
  | cons a as ih =>
    cases i with
    | zero => simp at h
    | succ n => exact ih n (by simpa using h)

theorem findIdxFrom_bounds (p : device_cache_t → Bool) :
    ∀ (l : List device_cache_t) (i j : Nat), findIdxFrom p l i = some j →
      i ≤ j ∧ j < i + l.length := by
  intro l
  induction l with
  | nil => intro i j h; simp [findIdxFrom] at h
  | cons d ds ih =>
    intro i j h
    simp only [findIdxFrom] at h
    by_cases hp : p d = true
    · rw [if_pos hp] at h
      cases h
      simp
    · rw [if_neg hp] at h
      have := ih (i + 1) j h
      constructor <;> [omega; (simp only [List.length_cons]; omega)]

theorem findIdxFrom_none (p : device_cache_t → Bool) :
    ∀ (l : List device_cache_t) (i : Nat), (∀ d ∈ l, p d = false) →
      findIdxFrom p l i = none := by
  intro l
  induction l with
  | nil => intro i _; rfl
  | cons d ds ih =>
    intro i h
    simp only [findIdxFrom]
    rw [if_neg (by simp [h d (by simp)]), ih (i + 1) (fun x hx => h x (by simp [hx]))]

theorem cache_find_or_alloc_bounds (devices : List device_cache_t) (addr : List Nat)
    (idx : Nat) (devices1 : List device_cache_t)
    (h : cache_find_or_alloc devices addr = (some idx, devices1)) :
    idx < devices1.length ∧ devices1.length = devices.length := by
  unfold cache_find_or_alloc at h
  cases h1 : findIdxFrom (fun d => d.in_use && d.addr == addr) devices 0 with
  | some i =>
    have hb := findIdxFrom_bounds _ devices 0 i h1
    rw [h1] at h
    simp only [Prod.mk.injEq, Option.some.injEq] at h
    rw [← h.1, ← h.2]
    exact ⟨by omega, rfl⟩
  | none =>
    rw [h1] at h
    cases h2 : findIdxFrom (fun d => !d.in_use) devices 0 with
    | some i =>
      have hb := findIdxFrom_bounds _ devices 0 i h2
      rw [h2] at h
      simp only [Prod.mk.injEq, Option.some.injEq] at h
      rw [← h.1, ← h.2]
      simp only [List.length_set]
      exact ⟨by omega, by trivial⟩
    | none =>
      rw [h2] at h
      simp only [Prod.mk.injEq] at h
      exact absurd h.1 (by simp)

theorem update_device_id_fields (d : device_cache_t) :
    (update_device_id d).addr = d.addr ∧ (update_device_id d).in_use = d.in_use ∧
    (update_device_id d).rssi = d.rssi ∧ (update_device_id d).have_mfg = d.have_mfg ∧
    (update_device_id d).mfg = d.mfg ∧ (update_device_id d).have_svc = d.have_svc ∧
    (update_device_id d).svc = d.svc := by
  unfold update_device_id
  split <;> simp

theorem valid_merged_update (d : device_cache_t) :
    valid_merged (update_device_id d) = valid_merged d := by
  have h := update_device_id_fields d
  unfold valid_merged
  rw [h.2.2.2.1, h.2.2.2.2.1, h.2.2.2.2.2.1]

/-- Characterization of one ingest call that found or allocated a slot:
the transition marker is exactly the false-to-true edge of the predicate,
and the latest index is reassigned to the slot whenever the updated record
satisfies the predicate and is untouched otherwise. -/
theorem ingest_char (st : AppState) (addr : List Nat) (rssi : Int) (ex : adv_extract_t)
    (idx : Nat) (devices1 : List device_cache_t)
    (hne : (ex.has_mfg || ex.has_svc) = true)
    (hfind : cache_find_or_alloc st.g_devices addr = (some idx, devices1)) :
    ingest st addr rssi ex =
      (if valid_merged (apply_event (devices1.getD idx zero_device) rssi ex) = true then
        { st with
            g_devices := devices1.set idx
              (update_device_id (apply_event (devices1.getD idx zero_device) rssi ex)),
            g_latest_index := (idx : Int) }
      else { st with g_devices := devices1.set idx (apply_event (devices1.getD idx zero_device) rssi ex) },
      !valid_merged (devices1.getD idx zero_device) &&
        valid_merged (apply_event (devices1.getD idx zero_device) rssi ex)) := by
  have hlen := cache_find_or_alloc_bounds st.g_devices addr idx devices1 hfind
  have hguard : (!ex.has_mfg && !ex.has_svc) = false := by
    cases hm : ex.has_mfg <;> cases hs : ex.has_svc <;> simp_all
  unfold ingest
  rw [hguard]
  simp only [Bool.false_eq_true, if_false]
  rw [hfind]
  simp only [maybe_mark_latest]
  rw [list_getD_set_self _ _ _ _ hlen.1]
  by_cases hv : valid_merged (apply_event (devices1.getD idx zero_device) rssi ex) = true
  · rw [if_pos hv, if_pos hv]
    rw [List.set_set, hv, Bool.and_true]
  · rw [if_neg hv, if_neg hv]
    rw [Bool.eq_false_iff.mpr hv, Bool.and_false]

theorem upd_addr (d : device_cache_t) : (update_device_id d).addr = d.addr := by
  unfold update_device_id; split <;> rfl

theorem upd_in_use (d : device_cache_t) : (update_device_id d).in_use = d.in_use := by
  unfold update_device_id; split <;> rfl

theorem upd_have_mfg (d : device_cache_t) : (update_device_id d).have_mfg = d.have_mfg := by
  unfold update_device_id; split <;> rfl

theorem upd_mfg (d : device_cache_t) : (update_device_id d).mfg = d.mfg := by
  unfold update_device_id; split <;> rfl

theorem upd_rssi (d : device_cache_t) : (update_device_id d).rssi = d.rssi := by
  unfold update_device_id; split <;> rfl

theorem apply_event_rssi (d : device_cache_t) (rssi : Int) (ex : adv_extract_t) :
    (apply_event d rssi ex).rssi = rssi := by
  simp only [apply_event]
  split <;> split <;> rfl

theorem valid_merged_parts (d : device_cache_t) (h : valid_merged d = true) :
    d.have_mfg = true ∧ d.have_svc = true ∧ is_switchbot_mfg d.mfg = true := by
  unfold valid_merged at h
  simp only [Bool.and_eq_true] at h
  tauto

theorem findIdxFrom_replicate_zero (addr : List Nat) (n i : Nat) :
    findIdxFrom (fun d => d.in_use && d.addr == addr) (List.replicate n zero_device) i = none :=
  findIdxFrom_none _ _ _ (by intro d hd; rw [(List.mem_replicate.mp hd).2]; rfl)

theorem find_or_alloc_empty (addr : List Nat) :
    cache_find_or_alloc (List.replicate MAX_DEVICES zero_device) addr =
      (some 0, ⟨addr, true, 0, false, [], false, [], 0, false⟩ :: List.replicate 11 zero_device) := by
  unfold cache_find_or_alloc
  rw [findIdxFrom_replicate_zero]
  rfl

theorem find_match_head (r : device_cache_t) (rest : List device_cache_t) (addr : List Nat)
    (h1 : r.in_use = true) (h2 : r.addr = addr) :
    cache_find_or_alloc (r :: rest) addr = (some 0, r :: rest) := by
  unfold cache_find_or_alloc
  simp only [findIdxFrom]
  rw [if_pos (by simp [h1, h2])]

theorem lor_shift_byte (a b : Nat) (hb : b < 256) : (a <<< 8) ||| b = a * 256 + b := by
  apply Nat.eq_of_testBit_eq
  intro i
  rw [Nat.testBit_lor, Nat.testBit_shiftLeft]
  have h256 : a * 256 + b = 2 ^ 8 * a + b := by ring_nf
  have hb8 : b < 2 ^ 8 := by norm_num at hb ⊢; omega
  rw [h256, Nat.testBit_mul_pow_two_add a hb8 i]
  by_cases h : i < 8
  · simp [h, Nat.not_le.mpr h]
  · have hge : 8 ≤ i := Nat.not_lt.mp h
    have hbf : b.testBit i = false :=
      Nat.testBit_lt_two_pow (lt_of_lt_of_le hb8 (Nat.pow_le_pow_right (by norm_num) hge))
    simp [h, hge, hbf]

theorem Chain_le {data : Nat → Nat} {dl i m : Nat} (h : Chain data dl i m) : i ≤ m := by
  induction h with
  | refl => exact Nat.le_refl _
  | step h1 h2 h3 h4 ih => omega

theorem Chain_cases {data : Nat → Nat} {dl i m : Nat} (h : Chain data dl i m) :
    m = i ∨ (i < dl ∧ data i ≠ 0 ∧ i + data i < dl ∧ Chain data dl (i + 1 + data i) m) := by
  cases h with
  | refl => exact Or.inl rfl
  | step h1 h2 h3 h4 => exact Or.inr ⟨h1, h2, h3, h4⟩

theorem advSlice_congr (data data2 : Nat → Nat) (start n : Nat)
    (h : ∀ k, k < n → data (start + k) = data2 (start + k)) :
    advSlice data start n = advSlice data2 start n := by
  unfold advSlice
  induction n with
  | zero => rfl
  | succ m ih =>
    rw [List.range_succ, List.map_append, List.map_append,
      ih (fun k hk => h k (by omega))]
    simp only [List.map_cons, List.map_nil]
    rw [h m (by omega)]

theorem adv_loop_congr :
    ∀ (fuel : Nat) (data data2 : Nat → Nat) (dl i : Nat) (acc : adv_extract_t),
      (∀ j, j < dl → data j = data2 j) →
      adv_extract_loop data dl fuel i acc = adv_extract_loop data2 dl fuel i acc := by
  intro fuel
  induction fuel with
  | zero => intro data data2 dl i acc h; rfl
  | succ n ih =>
    intro data data2 dl i acc h
    simp only [adv_extract_loop]
    by_cases hi : i < dl
    · rw [if_pos hi, if_pos hi]
      have hd : data i = data2 i := h i hi
      rw [← hd]
      by_cases hz : data i = 0
      · rw [if_pos hz, if_pos hz]
      · rw [if_neg hz, if_neg hz]
        by_cases hm : dl ≤ i + data i
        · rw [if_pos hm, if_pos hm]
        · rw [if_neg hm, if_neg hm]
          have hlen1 : 1 ≤ data i := by omega
          have h1 : data (i + 1) = data2 (i + 1) := h _ (by omega)
          rw [← h1]
          have hmslice : (data (i + 1) = 0xFF ∧ 2 ≤ data i - 1) →
              advSlice data (i + 2) (data i - 1) = advSlice data2 (i + 2) (data i - 1) := by
            intro _
            exact advSlice_congr data data2 (i + 2) (data i - 1)
              (fun k hk => h (i + 2 + k) (by omega))
          by_cases hmf : data (i + 1) = 0xFF ∧ 2 ≤ data i - 1
          · rw [if_pos hmf, if_pos hmf, hmslice hmf]
            by_cases hsv : data (i + 1) = 0x16 ∧ 2 ≤ data i - 1
            · rw [if_pos hsv, if_pos hsv]
              have h2 : data (i + 2) = data2 (i + 2) := h _ (by omega)
              have h3 : data (i + 3) = data2 (i + 3) := h _ (by omega)
              rw [← h2, ← h3]
              by_cases hq : data (i + 2) = 0x3d ∧ data (i + 3) = 0xfd
              · rw [if_pos hq, if_pos hq,
                  advSlice_congr data data2 (i + 4) (data i - 1 - 2)
                    (fun k hk => h (i + 4 + k) (by omega))]
                exact ih data data2 dl (i + 1 + data i) _ h
              · rw [if_neg hq, if_neg hq]
                exact ih data data2 dl (i + 1 + data i) _ h
            · rw [if_neg hsv, if_neg hsv]
              exact ih data data2 dl (i + 1 + data i) _ h
          · rw [if_neg hmf, if_neg hmf]
            by_cases hsv : data (i + 1) = 0x16 ∧ 2 ≤ data i - 1
            · rw [if_pos hsv, if_pos hsv]
              have h2 : data (i + 2) = data2 (i + 2) := h _ (by omega)
              have h3 : data (i + 3) = data2 (i + 3) := h _ (by omega)
              rw [← h2, ← h3]
              by_cases hq : data (i + 2) = 0x3d ∧ data (i + 3) = 0xfd
              · rw [if_pos hq, if_pos hq,
                  advSlice_congr data data2 (i + 4) (data i - 1 - 2)
                    (fun k hk => h (i + 4 + k) (by omega))]
                exact ih data data2 dl (i + 1 + data i) _ h
              · rw [if_neg hq, if_neg hq]
                exact ih data data2 dl (i + 1 + data i) _ h
            · rw [if_neg hsv, if_neg hsv]
              exact ih data data2 dl (i + 1 + data i) _ h
    · rw [if_neg hi, if_neg hi]

theorem adv_loop_stop_zero (data : Nat → Nat) (dl fuel i : Nat) (acc : adv_extract_t)
    (hi : i < dl) (hz : data i = 0) :
    adv_extract_loop data dl (fuel + 1) i acc = acc := by
  simp only [adv_extract_loop]
  rw [if_pos hi, if_pos hz]

theorem adv_loop_stop_malformed (data : Nat → Nat) (dl fuel i : Nat) (acc : adv_extract_t)
    (hi : i < dl) (hz : data i ≠ 0) (hm : dl ≤ i + data i) :
    adv_extract_loop data dl (fuel + 1) i acc = acc := by
  simp only [adv_extract_loop]
  rw [if_pos hi, if_neg hz, if_pos hm]

theorem adv_loop_trunc (data : Nat → Nat) (dl m : Nat)
    (hmz : data m ≠ 0) (hmm : dl ≤ m + data m) (hml : m < dl) :
    ∀ (fuel fuel2 i : Nat) (acc : adv_extract_t), Chain data dl i m →
      dl - i ≤ fuel → m - i ≤ fuel2 →
      adv_extract_loop data dl fuel i acc = adv_extract_loop data m fuel2 i acc := by
  intro fuel
  induction fuel with
  | zero =>
    intro fuel2 i acc hchain hf1 hf2
    have := Chain_le hchain
    omega
  | succ n ih =>
    intro fuel2 i acc hchain hf1 hf2
    rcases Chain_cases hchain with hrefl | ⟨h1, h2, h3, hch2⟩
    · subst hrefl
      rw [adv_loop_stop_malformed data dl n m acc hml hmz hmm]
      cases fuel2 with
      | zero => rfl
      | succ n2 =>
        simp only [adv_extract_loop]
        rw [if_neg (Nat.lt_irrefl m)]
    · have him : i + 1 + data i ≤ m := Chain_le hch2
      cases fuel2 with
      | zero => omega
      | succ n2 =>
        simp only [adv_extract_loop]
        rw [if_pos h1, if_pos (by omega : i < m), if_neg h2, if_neg h2,
          if_neg (by omega : ¬ dl ≤ i + data i),
          if_neg (by omega : ¬ m ≤ i + data i)]
        exact ih n2 (i + 1 + data i) _ hch2 (by omega) (by omega)

theorem adv_loop_svc_char :
    ∀ (fuel : Nat) (data : Nat → Nat) (dl i : Nat) (acc : adv_extract_t),
      dl - i ≤ fuel →
      ((∃ m, Chain data dl i m ∧ svc_struct_at data dl m
          ∧ (adv_extract_loop data dl fuel i acc).has_svc = true
          ∧ (adv_extract_loop data dl fuel i acc).svc = advSlice data (m + 4) (data m - 3))
       ∨ ((adv_extract_loop data dl fuel i acc).has_svc = acc.has_svc
          ∧ (adv_extract_loop data dl fuel i acc).svc = acc.svc
          ∧ ∀ m, Chain data dl i m → ¬ svc_struct_at data dl m)) := by
  intro fuel
  induction fuel with
  | zero =>
    intro data dl i acc hf
    refine Or.inr ⟨rfl, rfl, ?_⟩
    intro m hch hsat
    rcases Chain_cases hch with hrefl | ⟨h1, _, _, _⟩
    · subst hrefl
      exact absurd hsat.1 (by omega)
    · omega
  | succ n ih =>
    intro data dl i acc hf
    by_cases hi : i < dl
    · by_cases hz : data i = 0
      · rw [adv_loop_stop_zero data dl n i acc hi hz]
        refine Or.inr ⟨rfl, rfl, ?_⟩
        intro m hch hsat
        rcases Chain_cases hch with hrefl | ⟨_, h2, _, _⟩
        · subst hrefl
          exact hsat.2.1 hz
        · exact h2 hz
      · by_cases hm : dl ≤ i + data i
        · rw [adv_loop_stop_malformed data dl n i acc hi hz hm]
          refine Or.inr ⟨rfl, rfl, ?_⟩
          intro m hch hsat
          rcases Chain_cases hch with hrefl | ⟨_, _, h3, _⟩
          · subst hrefl
            exact absurd hsat.2.2.1 (by omega)
          · omega
        · simp only [adv_extract_loop]
          rw [if_pos hi, if_neg hz, if_neg hm]
          by_cases hsv : data (i + 1) = 0x16 ∧ 2 ≤ data i - 1
          · by_cases hq : data (i + 2) = 0x3d ∧ data (i + 3) = 0xfd
            · rw [if_pos hsv, if_pos hq]
              rcases ih data dl (i + 1 + data i) _ (by omega) with
                ⟨m2, hch2, hsat2, hhs2, hsl2⟩ | ⟨hhs2, hsl2, hno2⟩
              · exact Or.inl ⟨m2, Chain.step hi hz (by omega) hch2, hsat2, hhs2, hsl2⟩
              · exact Or.inl ⟨i, Chain.refl i, ⟨hi, hz, by omega, hsv.1, hsv.2, hq.1, hq.2⟩,
                  hhs2.trans rfl, hsl2.trans rfl⟩
            · rw [if_pos hsv, if_neg hq]
              have hpre : (if data (i + 1) = 0xFF ∧ 2 ≤ data i - 1 then
                    { acc with has_mfg := true, mfg := advSlice data (i + 2) (data i - 1) }
                  else acc).has_svc = acc.has_svc ∧
                  (if data (i + 1) = 0xFF ∧ 2 ≤ data i - 1 then
                    { acc with has_mfg := true, mfg := advSlice data (i + 2) (data i - 1) }
                  else acc).svc = acc.svc := by
                by_cases hmf : data (i + 1) = 0xFF ∧ 2 ≤ data i - 1
                · rw [if_pos hmf]; exact ⟨rfl, rfl⟩
                · rw [if_neg hmf]; exact ⟨rfl, rfl⟩
              rcases ih data dl (i + 1 + data i) _ (by omega) with
                ⟨m2, hch2, hsat2, hhs2, hsl2⟩ | ⟨hhs2, hsl2, hno2⟩
              · exact Or.inl ⟨m2, Chain.step hi hz (by omega) hch2, hsat2, hhs2, hsl2⟩
              · refine Or.inr ⟨hhs2.trans hpre.1, hsl2.trans hpre.2, ?_⟩
                intro m hch hsat
                rcases Chain_cases hch with hrefl | ⟨_, _, _, hch3⟩
                · subst hrefl
                  exact hq ⟨hsat.2.2.2.2.2.1, hsat.2.2.2.2.2.2⟩
                · exact hno2 m hch3 hsat
          · rw [if_neg hsv]
            have hpre : (if data (i + 1) = 0xFF ∧ 2 ≤ data i - 1 then
                  { acc with has_mfg := true, mfg := advSlice data (i + 2) (data i - 1) }
                else acc).has_svc = acc.has_svc ∧
                (if data (i + 1) = 0xFF ∧ 2 ≤ data i - 1 then
                  { acc with has_mfg := true, mfg := advSlice data (i + 2) (data i - 1) }
                else acc).svc = acc.svc := by
              by_cases hmf : data (i + 1) = 0xFF ∧ 2 ≤ data i - 1
              · rw [if_pos hmf]; exact ⟨rfl, rfl⟩
              · rw [if_neg hmf]; exact ⟨rfl, rfl⟩
            rcases ih data dl (i + 1 + data i) _ (by omega) with
              ⟨m2, hch2, hsat2, hhs2, hsl2⟩ | ⟨hhs2, hsl2, hno2⟩
            · exact Or.inl ⟨m2, Chain.step hi hz (by omega) hch2, hsat2, hhs2, hsl2⟩
            · refine Or.inr ⟨hhs2.trans hpre.1, hsl2.trans hpre.2, ?_⟩
              intro m hch hsat
              rcases Chain_cases hch with hrefl | ⟨_, _, _, hch3⟩
              · subst hrefl
                exact hsv ⟨hsat.2.2.2.1, hsat.2.2.2.2.1⟩
              · exact hno2 m hch3 hsat
    · simp only [adv_extract_loop]
      rw [if_neg hi]
      refine Or.inr ⟨rfl, rfl, ?_⟩
      intro m hch hsat
      rcases Chain_cases hch with hrefl | ⟨h1, _, _, _⟩
      · subst hrefl
        exact absurd hsat.1 hi
      · exact hi h1

/-- Claim C4: the parser reads only bytes at indices below the declared
length (its result is unchanged by any modification of bytes at or beyond
the length), it stops at a zero length byte, it stops at a structure whose
declared length would read past the buffer end, and in that case the
result equals the parse of the buffer truncated just before the malformed
trailing structure, hence exactly the fields of the preceding structures. -/
theorem c4_truncation_safety (data data2 : Nat → Nat) (dl m fuel : Nat) (acc : adv_extract_t) :
    ((∀ j, j < dl → data j = data2 j) → adv_extract data dl = adv_extract data2 dl)
    ∧ (m < dl → data m = 0 → adv_extract_loop data dl (fuel + 1) m acc = acc)
    ∧ (m < dl → data m ≠ 0 → dl ≤ m + data m → adv_extract_loop data dl (fuel + 1) m acc = acc)
    ∧ (Chain data dl 0 m → m < dl → data m ≠ 0 → dl ≤ m + data m →
        adv_extract data dl = adv_extract data m) :=
  ⟨fun h => adv_loop_congr dl data data2 dl 0 adv_init h,
   fun h1 h2 => adv_loop_stop_zero data dl fuel m acc h1 h2,
   fun h1 h2 h3 => adv_loop_stop_malformed data dl fuel m acc h1 h2 h3,
   fun hch h1 h2 h3 =>
     adv_loop_trunc data dl m h2 h3 h1 dl m 0 adv_init hch (by omega) (by omega)⟩

/-- Claim C4 witness: a buffer whose trailing structure declares a length
past the end parses exactly like its clean prefix, and bytes beyond the
declared length do not affect the result. -/
theorem c4_truncation_safety_witness :
    adv_extract (fun j => [3, 0xFF, 0x69, 0x09, 5, 0x16, 0x3d].getD j 0) 7 =
      adv_extract (fun j => [3, 0xFF, 0x69, 0x09, 5, 0x16, 0x3d].getD j 0) 4
    ∧ adv_extract (fun j => [3, 0xFF, 0x69, 0x09, 5, 0x16, 0x3d].getD j 0) 7 =
      adv_extract (fun j => [3, 0xFF, 0x69, 0x09, 5, 0x16, 0x3d].getD j 99) 7 :=
  ⟨(c4_truncation_safety (fun j => [3, 0xFF, 0x69, 0x09, 5, 0x16, 0x3d].getD j 0)
      (fun j => [3, 0xFF, 0x69, 0x09, 5, 0x16, 0x3d].getD j 0) 7 4 0 adv_init).2.2.2
    (Chain.step (by decide) (by decide) (by decide) (Chain.refl 4))
    (by decide) (by decide) (by decide),
   (c4_truncation_safety (fun j => [3, 0xFF, 0x69, 0x09, 5, 0x16, 0x3d].getD j 0)
      (fun j => [3, 0xFF, 0x69, 0x09, 5, 0x16, 0x3d].getD j 99) 7 4 0 adv_init).1
    (by decide)⟩

/-- Claim C5: the parsed output has the service payload present exactly
when the AD-structure iteration reaches a well-formed structure of type
0x16 whose value has length at least 2 and starts with bytes 0x3d, 0xfd;
when present, the payload is the remaining value bytes of such a
structure, so a structure with a different UUID never populates it. -/
theorem c5_uuid_gate (data : Nat → Nat) (dl : Nat) :
    ((adv_extract data dl).has_svc = true ↔ ∃ m, Chain data dl 0 m ∧ svc_struct_at data dl m)
    ∧ ((adv_extract data dl).has_svc = true →
        ∃ m, Chain data dl 0 m ∧ svc_struct_at data dl m ∧
          (adv_extract data dl).svc = advSlice data (m + 4) (data m - 3)) := by
  unfold adv_extract
  have hchar := adv_loop_svc_char dl data dl 0 adv_init (by omega)
  constructor
  · constructor
    · intro hs
      rcases hchar with ⟨m, hch, hsat, _, _⟩ | ⟨hhs, _, _⟩
      · exact ⟨m, hch, hsat⟩
      · have hf : (adv_extract_loop data dl dl 0 adv_init).has_svc = false := hhs.trans rfl
        rw [hs] at hf
        exact absurd hf (by decide)
    · intro hex
      rcases hex with ⟨m, hch, hsat⟩
      rcases hchar with ⟨_, _, _, hhs, _⟩ | ⟨_, _, hno⟩
      · exact hhs
      · exact absurd hsat (hno m hch)
  · intro hs
    rcases hchar with ⟨m, hch, hsat, _, hsl⟩ | ⟨hhs, _, _⟩
    · exact ⟨m, hch, hsat, hsl⟩
    · have hf : (adv_extract_loop data dl dl 0 adv_init).has_svc = false := hhs.trans rfl
      rw [hs] at hf
      exact absurd hf (by decide)

/-- Claim C5 witness: a single service-data structure with the matching
UUID makes the service payload present, and the payload bytes are the
value bytes after the UUID. -/
theorem c5_uuid_gate_witness :
    (adv_extract (fun j => [5, 0x16, 0x3d, 0xfd, 0xAA, 0xBB].getD j 0) 6).has_svc = true
    ∧ ∃ m, Chain (fun j => [5, 0x16, 0x3d, 0xfd, 0xAA, 0xBB].getD j 0) 6 0 m
        ∧ svc_struct_at (fun j => [5, 0x16, 0x3d, 0xfd, 0xAA, 0xBB].getD j 0) 6 m
        ∧ (adv_extract (fun j => [5, 0x16, 0x3d, 0xfd, 0xAA, 0xBB].getD j 0) 6).svc =
            advSlice (fun j => [5, 0x16, 0x3d, 0xfd, 0xAA, 0xBB].getD j 0) (m + 4)
              ((fun j => [5, 0x16, 0x3d, 0xfd, 0xAA, 0xBB].getD j 0) m - 3) :=
  ⟨(c5_uuid_gate (fun j => [5, 0x16, 0x3d, 0xfd, 0xAA, 0xBB].getD j 0) 6).1.mpr
    ⟨0, Chain.refl 0, by unfold svc_struct_at; decide⟩,
   (c5_uuid_gate (fun j => [5, 0x16, 0x3d, 0xfd, 0xAA, 0xBB].getD j 0) 6).2 (by decide)⟩

/-- Claim C9: an ECHO request replies success followed by the request
body verbatim, and leaves the state unchanged. -/
theorem c9_echo_roundtrip (st : AppState) (body : List Nat) (ok : Bool) :
    handle_call st (0x02 :: body) ok = (st, 0x00 :: body) := by
  simp [handle_call]

theorem latest_for_loop_switchbot (wanted : Nat) :
    ∀ (remaining i j : Nat) (devices devices2 : List device_cache_t),
      latest_for_loop wanted remaining i devices = (some j, devices2) →
      is_switchbot_mfg ((devices2.getD j zero_device).mfg) = true := by
  intro remaining
  induction remaining with
  | zero =>
    intro i j devices devices2 h
    simp [latest_for_loop] at h
  | succ n ih =>
    intro i j devices devices2 h
    simp only [latest_for_loop] at h
    by_cases h1 : (!(devices.getD i zero_device).in_use) = true
    · rw [if_pos h1] at h
      exact ih _ _ _ _ h
    · rw [if_neg h1] at h
      by_cases h2 : (!(devices.getD i zero_device).have_mfg ||
          !(devices.getD i zero_device).have_svc) = true
      · rw [if_pos h2] at h
        exact ih _ _ _ _ h
      · rw [if_neg h2] at h
        by_cases h3 : (!is_switchbot_mfg (devices.getD i zero_device).mfg) = true
        · rw [if_pos h3] at h
          exact ih _ _ _ _ h
        · rw [if_neg h3] at h
          have hsb : is_switchbot_mfg (devices.getD i zero_device).mfg = true := by
            cases hx : is_switchbot_mfg (devices.getD i zero_device).mfg
            · exact absurd (by rw [hx]; rfl) h3
            · rfl
          have hiu : (devices.getD i zero_device).in_use = true := by
            cases hx : (devices.getD i zero_device).in_use
            · exact absurd (by rw [hx]; rfl) h1
            · rfl
          have hilen : i < devices.length := by
            by_contra hc
            rw [list_getD_len_le _ _ _ (by omega)] at hiu
            exact absurd hiu (by decide)
          by_cases h4 : ((update_device_id (devices.getD i zero_device)).have_device_id &&
              (update_device_id (devices.getD i zero_device)).device_id == wanted) = true
          · rw [if_pos h4] at h
            simp only [Prod.mk.injEq, Option.some.injEq] at h
            rw [← h.1, ← h.2, list_getD_set_self _ _ _ _ hilen, upd_mfg]
            exact hsb
          · rw [if_neg h4] at h
            exact ih _ _ _ _ h

/-- Claim C1 (amended): the completed-transition marker returned by the
ingestion path is exactly the strict false-to-true edge of the
valid-merged-reading predicate, and for the sequence (mfg-only),
(svc-only), (identical svc-only) to one fresh address it is reported
exactly once, on the second call; however, the latest-valid index is
reassigned to the ingested slot whenever the updated record satisfies the
predicate after the call, also when the record already satisfied it
before, and is left unchanged only when the predicate fails afterwards. -/
theorem c1_edge_trigger_amended (st : AppState) (addr A mfg svc : List Nat)
    (rssi r1 r2 r3 : Int) (ex : adv_extract_t) (idx : Nat)
    (devices1 : List device_cache_t)
    (hne : (ex.has_mfg || ex.has_svc) = true)
    (hfind : cache_find_or_alloc st.g_devices addr = (some idx, devices1)) :
    ((ingest st addr rssi ex).2 =
      (!valid_merged (devices1.getD idx zero_device) &&
        valid_merged (apply_event (devices1.getD idx zero_device) rssi ex)))
    ∧ ((ingest st addr rssi ex).1.g_latest_index =
        if valid_merged (apply_event (devices1.getD idx zero_device) rssi ex) = true
        then (idx : Int) else st.g_latest_index)
    ∧ (2 ≤ mfg.length → mfg.length ≤ 31 → mfg.getD 0 0 = 0x69 → mfg.getD 1 0 = 0x09 →
        svc.length ≤ 31 →
        ((ingest initial_state A r1 ⟨mfg, [], true, false⟩).2 = false
         ∧ (ingest (ingest initial_state A r1 ⟨mfg, [], true, false⟩).1 A r2
              ⟨[], svc, false, true⟩).2 = true
         ∧ (ingest (ingest (ingest initial_state A r1 ⟨mfg, [], true, false⟩).1 A r2
              ⟨[], svc, false, true⟩).1 A r3 ⟨[], svc, false, true⟩).2 = false)) := by
  have hchar := ingest_char st addr rssi ex idx devices1 hne hfind
  refine ⟨?_, ?_, ?_⟩
  · rw [hchar]
  · rw [hchar]
    by_cases hv : valid_merged (apply_event (devices1.getD idx zero_device) rssi ex) = true
    · rw [if_pos hv, if_pos hv]
    · rw [if_neg hv, if_neg hv]
  · intro hm2 hm31 h69 h09 hs31
    have hnl : ¬(mfg.length < 2) := by omega
    have hsb : is_switchbot_mfg mfg = true := by
      unfold is_switchbot_mfg
      rw [if_neg hnl, h69, h09]
      rfl
    have happ1 : apply_event ⟨A, true, 0, false, [], false, [], 0, false⟩ r1
        ⟨mfg, [], true, false⟩ = ⟨A, true, r1, true, mfg, false, [], 0, false⟩ := by
      unfold apply_event
      rw [if_neg (by simp), if_pos ⟨by rfl, show mfg.length ≤ MAX_BLE_DATA from hm31⟩]
    have hfind0 : cache_find_or_alloc initial_state.g_devices A =
        (some 0, ⟨A, true, 0, false, [], false, [], 0, false⟩ :: List.replicate 11 zero_device) :=
      find_or_alloc_empty A
    have h1 : ingest initial_state A r1 ⟨mfg, [], true, false⟩ =
        ({ g_devices := (⟨A, true, r1, true, mfg, false, [], 0, false⟩ : device_cache_t) ::
             List.replicate 11 zero_device,
           g_latest_index := -1, g_ble_started := false }, false) := by
      rw [ingest_char initial_state A r1 ⟨mfg, [], true, false⟩ 0 _ rfl hfind0]
      rw [List.getD_cons_zero, happ1]
      rw [show valid_merged ⟨A, true, r1, true, mfg, false, [], 0, false⟩ = false from rfl]
      simp only [Bool.false_eq_true, if_false, Bool.and_false]
      rfl
    have happ2 : apply_event ⟨A, true, r1, true, mfg, false, [], 0, false⟩ r2
        ⟨[], svc, false, true⟩ = ⟨A, true, r2, true, mfg, true, svc, 0, false⟩ := by
      unfold apply_event
      rw [if_pos ⟨by rfl, show svc.length ≤ MAX_BLE_DATA from hs31⟩, if_neg (by simp)]
    have hv2 : valid_merged ⟨A, true, r2, true, mfg, true, svc, 0, false⟩ = true := by
      simp [valid_merged, hsb]
    have h2 : ingest (ingest initial_state A r1 ⟨mfg, [], true, false⟩).1 A r2
        ⟨[], svc, false, true⟩ =
        ({ g_devices := update_device_id ⟨A, true, r2, true, mfg, true, svc, 0, false⟩ ::
             List.replicate 11 zero_device,
           g_latest_index := 0, g_ble_started := false }, true) := by
      rw [h1]
      rw [ingest_char _ A r2 ⟨[], svc, false, true⟩ 0 _ rfl
        (find_match_head ⟨A, true, r1, true, mfg, false, [], 0, false⟩ _ A rfl rfl)]
      rw [List.getD_cons_zero, happ2, hv2]
      simp only [if_true]
      rw [show valid_merged ⟨A, true, r1, true, mfg, false, [], 0, false⟩ = false from rfl]
      rfl
    refine ⟨by rw [h1], by rw [h2], ?_⟩
    rw [h2]
    rw [ingest_char _ A r3 ⟨[], svc, false, true⟩ 0 _ rfl
      (find_match_head (update_device_id ⟨A, true, r2, true, mfg, true, svc, 0, false⟩) _ A
        (by rw [upd_in_use]) (by rw [upd_addr]))]
    rw [List.getD_cons_zero, valid_merged_update, hv2]
    rfl

/-- Claim C1 counterexample: after device A and then device B complete
valid merged readings, a further manufacturer-only ingest for A, whose
record already satisfied the predicate before the call, moves the
latest-valid index from slot 1 back to slot 0 even though no
false-to-true transition is reported. -/
theorem c1_counterexample :
    st_two_merged.g_latest_index = 1
    ∧ valid_merged (st_two_merged.g_devices.getD 0 zero_device) = true
    ∧ (ingest st_two_merged sc_addrA 0 sc_mfg_good).2 = false
    ∧ (ingest st_two_merged sc_addrA 0 sc_mfg_good).1.g_latest_index = 0 := by decide

/-- Claim C1 witness: the (mfg-only), (svc-only), (identical) sequence to
a fresh address reports the completed transition exactly once, on the
second call. -/
theorem c1_edge_trigger_amended_witness :
    (ingest initial_state [9, 9, 9, 0, 0, 0] (-1)
      ⟨[0x69, 0x09, 1, 2, 3, 4, 5, 6], [], true, false⟩).2 = false
    ∧ (ingest (ingest initial_state [9, 9, 9, 0, 0, 0] (-1)
        ⟨[0x69, 0x09, 1, 2, 3, 4, 5, 6], [], true, false⟩).1 [9, 9, 9, 0, 0, 0] (-2)
        ⟨[], [7, 8], false, true⟩).2 = true
    ∧ (ingest (ingest (ingest initial_state [9, 9, 9, 0, 0, 0] (-1)
        ⟨[0x69, 0x09, 1, 2, 3, 4, 5, 6], [], true, false⟩).1 [9, 9, 9, 0, 0, 0] (-2)
        ⟨[], [7, 8], false, true⟩).1 [9, 9, 9, 0, 0, 0] (-3)
        ⟨[], [7, 8], false, true⟩).2 = false :=
  (c1_edge_trigger_amended initial_state [9, 9, 9, 0, 0, 0] [9, 9, 9, 0, 0, 0]
    [0x69, 0x09, 1, 2, 3, 4, 5, 6] [7, 8] (-1) (-1) (-2) (-3)
    ⟨[0x69, 0x09, 1, 2, 3, 4, 5, 6], [], true, false⟩ 0
    (⟨[9, 9, 9, 0, 0, 0], true, 0, false, [], false, [], 0, false⟩ ::
      List.replicate 11 zero_device)
    (by decide) (by decide)).2.2 (by decide) (by decide) (by decide) (by decide) (by decide)

/-- Claim C2 (amended): an ingest call either leaves the latest-valid
index unchanged or points it at a slot whose manufacturer bytes pass the
company identifier check at that moment, and a LATEST_FOR scan only ever
returns a slot passing the check at query time; the LATEST read, however,
returns the record at the latest-valid index without re-checking, so
after the manufacturer half of the promoted record is overwritten with
non-matching bytes LATEST still returns that record. -/
theorem c2_company_gate_amended (st : AppState) (addr : List Nat) (rssi : Int)
    (ex : adv_extract_t) (wanted remaining i j : Nat)
    (devices devices2 : List device_cache_t) :
    ((ingest st addr rssi ex).1.g_latest_index = st.g_latest_index
      ∨ ∃ k : Nat, (ingest st addr rssi ex).1.g_latest_index = (k : Int)
          ∧ is_switchbot_mfg
              (((ingest st addr rssi ex).1.g_devices.getD k zero_device).mfg) = true)
    ∧ (latest_for_loop wanted remaining i devices = (some j, devices2) →
        is_switchbot_mfg ((devices2.getD j zero_device).mfg) = true) := by
  constructor
  · by_cases hg : (!ex.has_mfg && !ex.has_svc) = true
    · left
      unfold ingest
      rw [if_pos hg]
    · have hne : (ex.has_mfg || ex.has_svc) = true := by
        cases hx : ex.has_mfg <;> cases hy : ex.has_svc <;> simp_all
      rcases hfa : cache_find_or_alloc st.g_devices addr with ⟨o, devs1⟩
      cases o with
      | none =>
        left
        unfold ingest
        rw [if_neg hg, hfa]
      | some idx =>
        have hchar := ingest_char st addr rssi ex idx devs1 hne hfa
        have hlen := (cache_find_or_alloc_bounds _ _ _ _ hfa).1
        rw [hchar]
        by_cases hv : valid_merged (apply_event (devs1.getD idx zero_device) rssi ex) = true
        · right
          refine ⟨idx, by rw [if_pos hv], ?_⟩
          rw [if_pos hv]
          show is_switchbot_mfg
            (((devs1.set idx (update_device_id (apply_event (devs1.getD idx zero_device) rssi ex))).getD
              idx zero_device).mfg) = true
          rw [list_getD_set_self _ _ _ _ hlen, upd_mfg]
          exact (valid_merged_parts _ hv).2.2
        · left
          rw [if_neg hv]
  · exact fun h => latest_for_loop_switchbot wanted remaining i j devices devices2 h

/-- Claim C2 counterexample: device A completes a valid merged reading and
is promoted; a later ingest overwrites its manufacturer half with bytes
failing the company identifier check; the latest-valid index still points
at the slot and a LATEST query returns a success reply carrying that
record, whose manufacturer bytes fail the check at query time. -/
theorem c2_counterexample :
    st_overwritten.g_latest_index = 0
    ∧ is_switchbot_mfg ((st_overwritten.g_devices.getD 0 zero_device).mfg) = false
    ∧ (handle_call st_overwritten [0x12] true).2 =
        [0x00, 1, 0, 0, 0, 0, 0, 201, 1, 0xAA, 2, 0, 0]
    ∧ (handle_call st_overwritten [0x12] true).2.getD 0 0 = 0x00 := by decide

/-- Claim C2 witness: on the merged scenario state the LATEST_FOR scan
finds slot 0 and the returned slot passes the company identifier check. -/
theorem c2_company_gate_amended_witness :
    is_switchbot_mfg
      (((latest_for_loop 0x1234 MAX_DEVICES 0 st_merged.g_devices).2.getD 0
        zero_device).mfg) = true :=
  (c2_company_gate_amended initial_state [] 0 sc_no_fields 0x1234 MAX_DEVICES 0 0
    st_merged.g_devices (latest_for_loop 0x1234 MAX_DEVICES 0 st_merged.g_devices).2).2
    (by decide)

/-- Claim C3 (amended): when a record has a manufacturer payload of at
least 8 bytes, update_device_id sets device_id to bytes 6 and 7 read
big-endian and sets have_device_id; with fewer than 8 bytes it leaves the
record completely unchanged, so have_device_id, initially false in a
zeroed slot, stays false until a long payload arrives but is never
cleared when a later ingest overwrites a long payload with a short one;
maybe_mark_latest applies the recomputation exactly when the
valid-merged-reading predicate holds. -/
theorem c3_device_id_amended (d : device_cache_t) (st : AppState) (idx : Nat) :
    (d.have_mfg = true → 8 ≤ d.mfg.length → d.mfg.getD 6 0 < 256 → d.mfg.getD 7 0 < 256 →
      update_device_id d =
        { d with device_id := d.mfg.getD 6 0 * 256 + d.mfg.getD 7 0, have_device_id := true })
    ∧ (¬ (d.have_mfg = true ∧ 8 ≤ d.mfg.length) → update_device_id d = d)
    ∧ zero_device.have_device_id = false
    ∧ (valid_merged (st.g_devices.getD idx zero_device) = true →
        maybe_mark_latest st idx =
          ({ st with
              g_devices := st.g_devices.set idx
                (update_device_id (st.g_devices.getD idx zero_device)),
              g_latest_index := (idx : Int) }, true)) := by
  refine ⟨?_, ?_, rfl, ?_⟩
  · intro h1 h2 hb6 hb7
    unfold update_device_id
    rw [if_pos ⟨h1, h2⟩]
    have hval : ((d.mfg.getD 6 0 <<< 8) ||| d.mfg.getD 7 0) % 65536 =
        d.mfg.getD 6 0 * 256 + d.mfg.getD 7 0 := by
      rw [lor_shift_byte _ _ hb7]
      exact Nat.mod_eq_of_lt (by omega)
    rw [hval]
  · intro h
    unfold update_device_id
    rw [if_neg h]
  · intro hv
    simp only [maybe_mark_latest]
    rw [if_pos hv]

/-- Claim C3 counterexample: after device A merges with an 8-byte
manufacturer payload, a later ingest overwrites the payload with a 2-byte
one; the record keeps have_device_id true while its current manufacturer
payload length is 2, below 8. -/
theorem c3_counterexample :
    (st_shortened.g_devices.getD 0 zero_device).have_device_id = true
    ∧ (st_shortened.g_devices.getD 0 zero_device).mfg.length = 2
    ∧ ¬ 8 ≤ (st_shortened.g_devices.getD 0 zero_device).mfg.length := by decide

/-- Claim C3 witness: an 8-byte manufacturer payload yields device id
0x12 * 256 + 0x34 with have_device_id set, and a 2-byte payload leaves
the record, including a previously set have_device_id, unchanged. -/
theorem c3_device_id_amended_witness :
    update_device_id
      ⟨[1, 0, 0, 0, 0, 0], true, -60, true, [0x69, 0x09, 0, 0, 0, 0, 0x12, 0x34], true,
        [0xAA], 0, false⟩ =
      ⟨[1, 0, 0, 0, 0, 0], true, -60, true, [0x69, 0x09, 0, 0, 0, 0, 0x12, 0x34], true,
        [0xAA], 0x1234, true⟩
    ∧ update_device_id
        ⟨[1, 0, 0, 0, 0, 0], true, -50, true, [0x69, 0x09], true, [0xAA], 0x1234, true⟩ =
      ⟨[1, 0, 0, 0, 0, 0], true, -50, true, [0x69, 0x09], true, [0xAA], 0x1234, true⟩ :=
  ⟨(c3_device_id_amended
      ⟨[1, 0, 0, 0, 0, 0], true, -60, true, [0x69, 0x09, 0, 0, 0, 0, 0x12, 0x34], true,
        [0xAA], 0, false⟩ initial_state 0).1 (by decide) (by decide) (by decide) (by decide),
   (c3_device_id_amended
      ⟨[1, 0, 0, 0, 0, 0], true, -50, true, [0x69, 0x09], true, [0xAA], 0x1234, true⟩
      initial_state 0).2.1 (by decide)⟩

/-- Claim C6: when every slot is occupied and none carries the event
address, ingest drops the event, returning the state unchanged with no
transition reported; when a slot already holds the address, a non-empty
event updates that slot (its rssi becomes the event rssi) and leaves
every other slot untouched. -/
theorem c6_capacity_bound (st : AppState) (addr : List Nat) (rssi : Int)
    (ex : adv_extract_t) (j : Nat) :
    ((∀ d ∈ st.g_devices, d.in_use = true ∧ d.addr ≠ addr) →
      ingest st addr rssi ex = (st, false))
    ∧ (findIdxFrom (fun d => d.in_use && d.addr == addr) st.g_devices 0 = some j →
        (ex.has_mfg || ex.has_svc) = true →
        (((ingest st addr rssi ex).1.g_devices.getD j zero_device).rssi = rssi
         ∧ ∀ k, k ≠ j →
             (ingest st addr rssi ex).1.g_devices.getD k zero_device =
               st.g_devices.getD k zero_device)) := by
  constructor
  · intro hfull
    by_cases hg : (!ex.has_mfg && !ex.has_svc) = true
    · unfold ingest
      rw [if_pos hg]
    · unfold ingest
      rw [if_neg hg]
      have hs1 : findIdxFrom (fun d => d.in_use && d.addr == addr) st.g_devices 0 = none :=
        findIdxFrom_none _ _ _ (by
          intro d hd
          simp [(hfull d hd).1, beq_eq_false_iff_ne.mpr (hfull d hd).2])
      have hs2 : findIdxFrom (fun d => !d.in_use) st.g_devices 0 = none :=
        findIdxFrom_none _ _ _ (by
          intro d hd
          simp [(hfull d hd).1])
      unfold cache_find_or_alloc
      rw [hs1, hs2]
  · intro hfi hne
    have hfind : cache_find_or_alloc st.g_devices addr = (some j, st.g_devices) := by
      unfold cache_find_or_alloc
      rw [hfi]
    have hchar := ingest_char st addr rssi ex j st.g_devices hne hfind
    have hlen := (cache_find_or_alloc_bounds _ _ _ _ hfind).1
    rw [hchar]
    by_cases hv : valid_merged (apply_event (st.g_devices.getD j zero_device) rssi ex) = true
    · rw [if_pos hv]
      constructor
      · show ((st.g_devices.set j
            (update_device_id (apply_event (st.g_devices.getD j zero_device) rssi ex))).getD
            j zero_device).rssi = rssi
        rw [list_getD_set_self _ _ _ _ hlen, upd_rssi, apply_event_rssi]
      · intro k hk
        show (st.g_devices.set j
            (update_device_id (apply_event (st.g_devices.getD j zero_device) rssi ex))).getD
            k zero_device = st.g_devices.getD k zero_device
        rw [list_getD_set_ne _ _ _ _ _ (fun he => hk he.symm)]
    · rw [if_neg hv]
      constructor
      · show ((st.g_devices.set j
            (apply_event (st.g_devices.getD j zero_device) rssi ex)).getD
            j zero_device).rssi = rssi
        rw [list_getD_set_self _ _ _ _ hlen, apply_event_rssi]
      · intro k hk
        show (st.g_devices.set j
            (apply_event (st.g_devices.getD j zero_device) rssi ex)).getD
            k zero_device = st.g_devices.getD k zero_device
        rw [list_getD_set_ne _ _ _ _ _ (fun he => hk he.symm)]

/-- Claim C6 witness: after twelve allocating events for twelve distinct
addresses the cache is full; an event for a thirteenth address is dropped
with the state unchanged, while an event for the first address still
updates its own slot. -/
theorem c6_capacity_bound_witness :
    ingest st_full [13, 0, 0, 0, 0, 0] (-40) sc_mfg_good = (st_full, false)
    ∧ ((ingest st_full [1, 0, 0, 0, 0, 0] (-41) sc_mfg_good).1.g_devices.getD 0
        zero_device).rssi = -41 :=
  ⟨(c6_capacity_bound st_full [13, 0, 0, 0, 0, 0] (-40) sc_mfg_good 0).1 (by decide),
   ((c6_capacity_bound st_full [1, 0, 0, 0, 0, 0] (-41) sc_mfg_good 0).2
      (by decide) (by decide)).1⟩

/-- Claim C8 (amended): an event whose extract carries neither a
manufacturer nor a service field is dropped by the guard before the cache
is touched, leaving the whole state, including rssi, unchanged; an event
carrying at least one field writes its rssi into the found or allocated
slot unconditionally, whatever the merge state. -/
theorem c8_rssi_amended (st : AppState) (addr : List Nat) (rssi : Int) (ex : adv_extract_t)
    (idx : Nat) (devices1 : List device_cache_t) :
    (ex.has_mfg = false → ex.has_svc = false → ingest st addr rssi ex = (st, false))
    ∧ ((ex.has_mfg || ex.has_svc) = true →
        cache_find_or_alloc st.g_devices addr = (some idx, devices1) →
        ((ingest st addr rssi ex).1.g_devices.getD idx zero_device).rssi = rssi) := by
  constructor
  · intro h1 h2
    unfold ingest
    rw [if_pos (by rw [h1, h2]; rfl)]
  · intro hne hfind
    have hchar := ingest_char st addr rssi ex idx devices1 hne hfind
    have hlen := (cache_find_or_alloc_bounds _ _ _ _ hfind).1
    rw [hchar]
    by_cases hv : valid_merged (apply_event (devices1.getD idx zero_device) rssi ex) = true
    · rw [if_pos hv]
      show ((devices1.set idx
          (update_device_id (apply_event (devices1.getD idx zero_device) rssi ex))).getD
          idx zero_device).rssi = rssi
      rw [list_getD_set_self _ _ _ _ hlen, upd_rssi, apply_event_rssi]
    · rw [if_neg hv]
      show ((devices1.set idx
          (apply_event (devices1.getD idx zero_device) rssi ex)).getD
          idx zero_device).rssi = rssi
      rw [list_getD_set_self _ _ _ _ hlen, apply_event_rssi]

/-- Claim C8 counterexample: an event whose advertisement data yields
neither field reaches the ingestion path with rssi -10 and leaves the
record rssi at its previous value -60: the rssi write is not performed
for such events. -/
theorem c8_counterexample :
    ingest st_mfg_only sc_addrA (-10) sc_no_fields = (st_mfg_only, false)
    ∧ (st_mfg_only.g_devices.getD 0 zero_device).rssi = -60
    ∧ ((-60 : Int) ≠ -10) := by decide

/-- Claim C8 witness: a field-less event is dropped with the state
unchanged, and a service-only event for a known address updates that
record rssi. -/
theorem c8_rssi_amended_witness :
    ingest initial_state sc_addrA (-5) sc_no_fields = (initial_state, false)
    ∧ ((ingest st_mfg_only sc_addrA (-42) sc_svc_one).1.g_devices.getD 0
        zero_device).rssi = -42 :=
  ⟨(c8_rssi_amended initial_state sc_addrA (-5) sc_no_fields 0
      initial_state.g_devices).1 (by decide) (by decide),
   (c8_rssi_amended st_mfg_only sc_addrA (-42) sc_svc_one 0
      st_mfg_only.g_devices).2 (by decide) (by decide)⟩

/-- Claim C7 (amended): every reply is either the success byte followed by
a payload or the error byte followed by exactly one error-code byte; an
unknown opcode yields code 0x12; before a successful RADIO_START,
RADIO_STOP yields code 0x32 while LATEST and LATEST_FOR yield code 0x40,
so the three radio-dependent opcodes do not share a single not-started
code; after start, LATEST with no completed reading yields 0x41,
LATEST_FOR with a body shorter than two bytes yields 0x42, and LATEST_FOR
with no matching record yields the distinct code 0x43. -/
theorem c7_reply_taxonomy_amended (st : AppState) (req body rest : List Nat) (ok : Bool)
    (op b1 b2 : Nat) :
    ((∃ p, (handle_call st req ok).2 = 0x00 :: p)
      ∨ (∃ c, (handle_call st req ok).2 = [0x01, c]))
    ∧ (op ≠ 0x01 → op ≠ 0x02 → op ≠ 0x10 → op ≠ 0x11 → op ≠ 0x12 → op ≠ 0x13 →
        (handle_call st (op :: body) ok).2 = [0x01, 0x12])
    ∧ (st.g_ble_started = false →
        ((handle_call st (0x11 :: body) ok).2 = [0x01, 0x32]
         ∧ (handle_call st (0x12 :: body) ok).2 = [0x01, 0x40]
         ∧ (handle_call st (0x13 :: body) ok).2 = [0x01, 0x40]))
    ∧ (st.g_ble_started = true → st.g_latest_index < 0 →
        (handle_call st (0x12 :: body) ok).2 = [0x01, 0x41])
    ∧ (st.g_ble_started = true → body.length < 2 →
        (handle_call st (0x13 :: body) ok).2 = [0x01, 0x42])
    ∧ (st.g_ble_started = true →
        (latest_for_loop ((b1 <<< 8) ||| b2) MAX_DEVICES 0 st.g_devices).1 = none →
        (handle_call st (0x13 :: b1 :: b2 :: rest) ok).2 = [0x01, 0x43]) := by
  refine ⟨?_, ?_, ?_, ?_, ?_, ?_⟩
  · cases req with
    | nil => exact Or.inr ⟨0x11, rfl⟩
    | cons op2 bd =>
      simp only [handle_call, reply_latest]
      by_cases h1 : op2 = 0x01
      · rw [if_pos h1]; exact Or.inl ⟨_, rfl⟩
      · rw [if_neg h1]
        by_cases h2 : op2 = 0x02
        · rw [if_pos h2]; exact Or.inl ⟨_, rfl⟩
        · rw [if_neg h2]
          by_cases h3 : op2 = 0x10
          · rw [if_pos h3]
            by_cases hs : st.g_ble_started = false
            · rw [if_pos hs]
              by_cases hok : ok = true
              · rw [if_pos hok]; exact Or.inl ⟨_, rfl⟩
              · rw [if_neg hok]; exact Or.inr ⟨_, rfl⟩
            · rw [if_neg hs]; exact Or.inl ⟨_, rfl⟩
          · rw [if_neg h3]
            by_cases h4 : op2 = 0x11
            · rw [if_pos h4]
              by_cases hs : st.g_ble_started = false
              · rw [if_pos hs]; exact Or.inr ⟨_, rfl⟩
              · rw [if_neg hs]; exact Or.inl ⟨_, rfl⟩
            · rw [if_neg h4]
              by_cases h5 : op2 = 0x12
              · rw [if_pos h5]
                by_cases hs : st.g_ble_started = false
                · rw [if_pos hs]; exact Or.inr ⟨_, rfl⟩
                · rw [if_neg hs]
                  by_cases hl : st.g_latest_index < 0
                  · rw [if_pos hl]; exact Or.inr ⟨_, rfl⟩
                  · rw [if_neg hl]; exact Or.inl ⟨_, rfl⟩
              · rw [if_neg h5]
                by_cases h6 : op2 = 0x13
                · rw [if_pos h6]
                  by_cases hs : st.g_ble_started = false
                  · rw [if_pos hs]; exact Or.inr ⟨_, rfl⟩
                  · rw [if_neg hs]
                    by_cases hl : bd.length < 2
                    · rw [if_pos hl]; exact Or.inr ⟨_, rfl⟩
                    · rw [if_neg hl]
                      rcases hr : latest_for_loop (bd.getD 0 0 <<< 8 ||| bd.getD 1 0)
                        MAX_DEVICES 0 st.g_devices with ⟨o, devs⟩
                      cases o with
                      | none => exact Or.inr ⟨_, rfl⟩
                      | some i => exact Or.inl ⟨_, rfl⟩
                · rw [if_neg h6]; exact Or.inr ⟨_, rfl⟩
  · intro h1 h2 h3 h4 h5 h6
    simp only [handle_call]
    rw [if_neg h1, if_neg h2, if_neg h3, if_neg h4, if_neg h5, if_neg h6]
  · intro hs
    refine ⟨?_, ?_, ?_⟩
    · simp only [handle_call]
      rw [if_neg (by decide), if_neg (by decide), if_neg (by decide),
        if_pos trivial, if_pos hs]
    · simp only [handle_call]
      rw [if_neg (by decide), if_neg (by decide), if_neg (by decide), if_neg (by decide),
        if_pos trivial, if_pos hs]
    · simp only [handle_call]
      rw [if_neg (by decide), if_neg (by decide), if_neg (by decide), if_neg (by decide),
        if_neg (by decide), if_pos trivial, if_pos hs]
  · intro hs hl
    simp only [handle_call]
    rw [if_neg (by decide), if_neg (by decide), if_neg (by decide), if_neg (by decide),
      if_pos trivial, hs, if_neg (by decide), if_pos hl]
  · intro hs hl
    simp only [handle_call]
    rw [if_neg (by decide), if_neg (by decide), if_neg (by decide), if_neg (by decide),
      if_neg (by decide), if_pos trivial, hs, if_neg (by decide), if_pos hl]
  · intro hs hscan
    simp only [handle_call]
    rw [if_neg (by decide), if_neg (by decide), if_neg (by decide), if_neg (by decide),
      if_neg (by decide), if_pos trivial, hs, if_neg (by decide),
      if_neg (by simp only [List.length_cons]; omega)]
    simp only [List.getD_cons_zero, List.getD_cons_succ]
    rcases hr : latest_for_loop ((b1 <<< 8) ||| b2) MAX_DEVICES 0 st.g_devices with ⟨o, devs⟩
    rw [hr] at hscan
    cases o with
    | none => rfl
    | some i => exact absurd hscan (by simp)

/-- Claim C7 counterexample: before RADIO_START, RADIO_STOP replies with
error code 0x32 while LATEST replies with error code 0x40, so the three
radio-dependent opcodes do not yield a single NotStarted code. -/
theorem c7_counterexample :
    (handle_call initial_state [0x11] true).2 = [0x01, 0x32]
    ∧ (handle_call initial_state [0x12] true).2 = [0x01, 0x40]
    ∧ (0x32 : Nat) ≠ 0x40 := by decide

/-- Claim C7 witness: the taxonomy on concrete requests: unknown opcode,
not-started LATEST, empty-cache LATEST, short LATEST_FOR body, and
no-match LATEST_FOR. -/
theorem c7_reply_taxonomy_amended_witness :
    (handle_call st_started [0x77] true).2 = [0x01, 0x12]
    ∧ (handle_call initial_state [0x12] true).2 = [0x01, 0x40]
    ∧ (handle_call st_started [0x12] true).2 = [0x01, 0x41]
    ∧ (handle_call st_started [0x13, 9] true).2 = [0x01, 0x42]
    ∧ (handle_call st_started [0x13, 0x12, 0x34] true).2 = [0x01, 0x43] :=
  ⟨(c7_reply_taxonomy_amended st_started [] [] [] true 0x77 0 0).2.1
      (by decide) (by decide) (by decide) (by decide) (by decide) (by decide),
   ((c7_reply_taxonomy_amended initial_state [] [] [] true 0 0 0).2.2.1 (by decide)).2.1,
   (c7_reply_taxonomy_amended st_started [] [] [] true 0 0 0).2.2.2.1
      (by decide) (by decide),
   (c7_reply_taxonomy_amended st_started [] [9] [] true 0 0 0).2.2.2.2.1
      (by decide) (by decide),
   (c7_reply_taxonomy_amended st_started [] [] [] true 0 0x12 0x34).2.2.2.2.2
      (by decide) (by decide)⟩

/-- Claim C10: the started flag is monotone across every request, a
RADIO_STOP leaves the state unchanged, in particular the flag set, and
once the flag is set the replies of RADIO_STOP, LATEST and LATEST_FOR
are never the not-started errors 0x32 or 0x40. -/
theorem c10_started_monotone (st : AppState) (req body : List Nat) (ok : Bool) :
    (st.g_ble_started = true → (handle_call st req ok).1.g_ble_started = true)
    ∧ ((handle_call st (0x11 :: body) ok).1 = st)
    ∧ (st.g_ble_started = true →
        ((handle_call st (0x11 :: body) ok).2 ≠ [0x01, 0x32]
         ∧ (handle_call st (0x11 :: body) ok).2 ≠ [0x01, 0x40]
         ∧ (handle_call st (0x12 :: body) ok).2 ≠ [0x01, 0x32]
         ∧ (handle_call st (0x12 :: body) ok).2 ≠ [0x01, 0x40]
         ∧ (handle_call st (0x13 :: body) ok).2 ≠ [0x01, 0x32]
         ∧ (handle_call st (0x13 :: body) ok).2 ≠ [0x01, 0x40])) := by
  refine ⟨?_, ?_, ?_⟩
  · intro hs
    cases req with
    | nil => exact hs
    | cons op2 bd =>
      simp only [handle_call]
      repeat' first
      | exact hs
      | rfl
      | split
  · simp only [handle_call]
    rw [if_neg (by decide), if_neg (by decide), if_neg (by decide), if_pos trivial]
    split <;> rfl
  · intro hs
    have hstop : (handle_call st (0x11 :: body) ok).2 = [0x00, 0x01] := by
      simp only [handle_call]
      rw [if_neg (by decide), if_neg (by decide), if_neg (by decide),
        if_pos trivial, hs, if_neg (by decide)]
    refine ⟨by rw [hstop]; decide, by rw [hstop]; decide, ?_, ?_, ?_, ?_⟩
    · simp only [handle_call]
      rw [if_neg (by decide), if_neg (by decide), if_neg (by decide), if_neg (by decide),
        if_pos trivial, hs, if_neg (by decide)]
      split
      · simp
      · simp [reply_latest]
    · simp only [handle_call]
      rw [if_neg (by decide), if_neg (by decide), if_neg (by decide), if_neg (by decide),
        if_pos trivial, hs, if_neg (by decide)]
      split
      · simp
      · simp [reply_latest]
    · simp only [handle_call]
      rw [if_neg (by decide), if_neg (by decide), if_neg (by decide), if_neg (by decide),
        if_neg (by decide), if_pos trivial, hs, if_neg (by decide)]
      split
      · simp
      · rcases hr : latest_for_loop ((body.getD 0 0 <<< 8) ||| body.getD 1 0)
          MAX_DEVICES 0 st.g_devices with ⟨o, devs⟩
        cases o with
        | none => simp
        | some i => simp [reply_latest]
    · simp only [handle_call]
      rw [if_neg (by decide), if_neg (by decide), if_neg (by decide), if_neg (by decide),
        if_neg (by decide), if_pos trivial, hs, if_neg (by decide)]
      split
      · simp
      · rcases hr : latest_for_loop ((body.getD 0 0 <<< 8) ||| body.getD 1 0)
          MAX_DEVICES 0 st.g_devices with ⟨o, devs⟩
        cases o with
        | none => simp
        | some i => simp [reply_latest]

/-- Claim C10 witness: after a successful RADIO_START, a RADIO_STOP
leaves the started flag set and a subsequent LATEST does not report the
not-started error. -/
theorem c10_started_monotone_witness :
    (handle_call st_started [0x11] true).1 = st_started
    ∧ (handle_call st_started [0x12] true).2 ≠ [0x01, 0x40] :=
  ⟨(c10_started_monotone st_started [0x11] [] true).2.1,
   ((c10_started_monotone st_started [] [] true).2.2 (by decide)).2.2.2.1⟩
